import Mathlib

/-!
Verification of the ftl2-scale repository (provision.py, teardown.py,
scale_test.py, ping_test.py) against its natural-language specification.

The scripts drive an external automation engine (the ftl2 library) through a
narrow interface: a state store mapping resource names to resource records
(operations has / get / add / remove / resources), a cloud provider create and
destroy capability, dynamic host registration, and an ssh reachability wait.
The engine itself is an external collaborator; its interface behaviour is
modelled here exactly as the spec's contract describes it (spec sections 4.1
and 6), while the reconciliation and benchmark logic is translated directly
from the Python sources.

Wall-clock timing is modelled by explicit clock readings (rationals): a
backend behaviour carries the duration it runs before returning or raising,
and elapsed time is computed as the difference of the two clock readings,
exactly as the code subtracts two perf_counter values.  Python float
rounding (round(x, n)) is modelled as exact rational rounding half to even.
-/

namespace Ftl2Scale

/-! ## Decimal printing of naturals

The scripts build resource names with f-strings such as f"ftl2-scale-{i}".
In Lean the decimal printing of a natural is Nat.repr.  The proofs about
provisioning need that distinct indices give distinct names, so we prove that
Nat.repr is injective by exhibiting the decoding of a digit list.
-/

/-- Numeric value of a decimal digit character. -/
def dval (c : Char) : Nat := c.toNat - 48

/-- Decode a most-significant-first decimal digit list. -/
def decodeDigits (l : List Char) : Nat := l.foldl (fun a c => 10 * a + dval c) 0

theorem tdcAppend (f : Nat) : ∀ (n : Nat) (ds : List Char),
    Nat.toDigitsCore 10 f n ds = Nat.toDigitsCore 10 f n [] ++ ds := by
  induction f with
  | zero => intro n ds; simp [Nat.toDigitsCore]
  | succ f ih =>
    intro n ds
    simp only [Nat.toDigitsCore]
    by_cases h : n / 10 = 0
    · simp [h]
    · simp only [h, if_false]
      rw [ih (n / 10) (Nat.digitChar (n % 10) :: ds),
          ih (n / 10) (Nat.digitChar (n % 10) :: [])]
      simp

theorem tdcFuel : ∀ (f₁ f₂ n : Nat), n < f₁ → n < f₂ →
    Nat.toDigitsCore 10 f₁ n [] = Nat.toDigitsCore 10 f₂ n [] := by
  intro f₁
  induction f₁ with
  | zero => intro f₂ n h1; omega
  | succ f ih =>
    intro f₂ n h1 h2
    cases f₂ with
    | zero => omega
    | succ f₂ =>
      simp only [Nat.toDigitsCore]
      by_cases h : n / 10 = 0
      · simp [h]
      · simp only [h, if_false]
        rw [tdcAppend f, tdcAppend f₂]
        have hlt : n / 10 < n := Nat.div_lt_self (by omega) (by omega)
        rw [ih f₂ (n / 10) (by omega) (by omega)]

theorem dval_digitChar (k : Nat) (h : k < 10) : dval (Nat.digitChar k) = k := by
  interval_cases k <;> decide

theorem decode_toDigits (n : Nat) : decodeDigits (Nat.toDigits 10 n) = n := by
  induction n using Nat.strong_induction_on with
  | _ n ih =>
    unfold Nat.toDigits
    simp only [Nat.toDigitsCore]
    by_cases h : n / 10 = 0
    · have hn : n < 10 := by omega
      simp only [h, if_true]
      simp [decodeDigits, dval_digitChar (n % 10) (Nat.mod_lt n (by omega))]
      omega
    · simp only [h, if_false]
      rw [tdcAppend]
      have hlt : n / 10 < n := Nat.div_lt_self (by omega) (by omega)
      rw [tdcFuel n (n / 10 + 1) (n / 10) hlt (Nat.lt_succ_self _)]
      have hrec : decodeDigits (Nat.toDigits 10 (n / 10)) = n / 10 := ih (n / 10) hlt
      unfold Nat.toDigits at hrec
      simp only [decodeDigits, List.foldl_append] at *
      rw [hrec]
      simp [dval_digitChar (n % 10) (Nat.mod_lt n (by omega))]
      omega

theorem natRepr_inj {n m : Nat} (h : Nat.repr n = Nat.repr m) : n = m := by
  have hd : Nat.toDigits 10 n = Nat.toDigits 10 m := by
    have := congrArg String.data h
    simpa [Nat.repr, List.asString] using this
  have := congrArg decodeDigits hd
  rwa [decode_toDigits, decode_toDigits] at this

/-! ## Python string operations

str.startswith and sorted are modelled structurally over the character data
of the strings, so that every definition evaluates inside the kernel.
Python sorted is a stable sort by lexicographic code-point order; insertion
sort below has exactly that semantics.
-/

/-- Model of Python str.startswith: the data of p is a list prefix of the data
of s. -/
def strStarts (p s : String) : Bool := p.data.isPrefixOf s.data

/-- Lexicographic code-point order on character lists, the order Python uses
to compare strings. -/
def lexLe : List Char → List Char → Bool
  | [], _ => true
  | _ :: _, [] => false
  | a :: as, b :: bs =>
    if a.toNat < b.toNat then true
    else if b.toNat < a.toNat then false
    else lexLe as bs

/-- Order on strings used to model Python sorted. -/
def strLe (s t : String) : Bool := lexLe s.data t.data

/-- Insert a string into an already sorted list. -/
def insertSorted (n : String) : List String → List String
  | [] => [n]
  | m :: ms => if strLe n m then n :: m :: ms else m :: insertSorted n ms

/-- Model of Python sorted on lists of strings (a stable sort). -/
def sortStrings (l : List String) : List String := l.foldr insertSorted []

theorem mem_insertSorted (a n : String) (l : List String) :
    a ∈ insertSorted n l ↔ a = n ∨ a ∈ l := by
  induction l with
  | nil => simp [insertSorted]
  | cons m ms ih =>
    simp only [insertSorted]
    by_cases h : strLe n m = true
    · rw [if_pos h]; simp
    · rw [if_neg h]
      simp only [List.mem_cons, ih]
      tauto

theorem mem_sortStrings (a : String) (l : List String) :
    a ∈ sortStrings l ↔ a ∈ l := by
  induction l with
  | nil => simp [sortStrings]
  | cons m ms ih =>
    have : sortStrings (m :: ms) = insertSorted m (sortStrings ms) := rfl
    rw [this, mem_insertSorted, ih]
    simp

/-! ## State Store

The durable ledger mapping resource names to resource records
(.ftl2-state.json).  Its implementation lives in the external ftl2 library;
the operations are modelled from the contract in spec section 4.1: has tests
exact-name presence, get looks the record up, add inserts a new name, remove
deletes a present name, resources iterates over all names.  A store is a
list of name-record pairs (a mapping, so callers never create duplicate
keys; add is only called after has returned false, remove only on present
names, which makes the total filter model of remove agree with the
contract on every reachable call).
-/

/-- Resource record, one per provisioned node, as written by provision.py:
provider tag, provider-assigned id, address list, display label. -/
structure RRecord where
  provider : String
  id : Nat
  ipv4 : List String
  label : String
deriving DecidableEq

/-- The state store: a mapping from resource name to resource record. -/
abbrev StateStore := List (String × RRecord)

/-- Names of all tracked resources, in insertion order
(state.resources()). -/
def resourceNames (s : StateStore) : List String := s.map Prod.fst

/-- state.has(name): true iff a record with that exact name is present. -/
def hasName (s : StateStore) (n : String) : Bool := (resourceNames s).contains n

/-- state.get(name): the record stored under the name, if any. -/
def getName (s : StateStore) (n : String) : Option RRecord :=
  (s.find? (fun p => p.1 == n)).map Prod.snd

/-- state.add(name, record): insert a new mapping entry. -/
def addName (s : StateStore) (n : String) (r : RRecord) : StateStore := s ++ [(n, r)]

/-- state.remove(name): delete the entry with the given name. -/
def removeName (s : StateStore) (n : String) : StateStore :=
  s.filter (fun p => !(p.1 == n))

theorem hasName_iff (s : StateStore) (n : String) :
    hasName s n = true ↔ n ∈ resourceNames s := by
  simp [hasName, List.contains, List.elem_iff]

theorem resourceNames_addName (s : StateStore) (n : String) (r : RRecord) :
    resourceNames (addName s n r) = resourceNames s ++ [n] := by
  simp [resourceNames, addName]

theorem hasName_addName (s : StateStore) (n m : String) (r : RRecord) :
    hasName (addName s m r) n = (hasName s n || n == m) := by
  have h1 := hasName_iff (addName s m r) n
  have h2 := hasName_iff s n
  rw [resourceNames_addName] at h1
  rcases hb : hasName (addName s m r) n <;>
    rcases hc : hasName s n <;>
      rcases hd : n == m <;>
        simp_all [List.mem_append, beq_iff_eq]

/-! ## Provider capability

The cloud provider create capability (community.general.linode_v4 with
state=present), consumed through the automation engine.  Modelled from the
contract in spec section 6: a call either returns a real instance (id and
address list), returns a skipped marker (the engine simulating the call in
check mode), or raises.  A response function assigns one outcome per
label. -/
inductive CreateResponse where
  | made (id : Nat) (ipv4 : List String)
  | skipped
  | failure (msg : String)
deriving DecidableEq

/-- The module-level constant SERVER_PREFIX of provision.py, teardown.py and
scale_test.py. -/
def serverTag : String := "ftl2-scale"

/-- The resource name built for index i in the provisioning loop. -/
def nodeName (i : Nat) : String := serverTag ++ "-" ++ Nat.repr i

theorem nodeName_inj {i j : Nat} (h : nodeName i = nodeName j) : i = j := by
  have hd := congrArg String.data h
  simp only [nodeName, serverTag] at hd
  have h2 : ∀ a b : String, (a ++ b).data = a.data ++ b.data := by
    intro a b; rfl
  rw [h2, h2, h2, h2, List.append_assoc, List.append_assoc] at hd
  have h3 : (Nat.repr i).data = (Nat.repr j).data :=
    List.append_cancel_left (List.append_cancel_left hd)
  exact natRepr_inj (by cases hi : Nat.repr i; cases hj : Nat.repr j
                        simp_all)

/-! ## Provisioning Reconciler (provision.py main) -/

/-- One dynamic host registration performed by ftl.add_host. -/
structure HostReg where
  hostname : String
  ansibleHost : String
  ansibleUser : String
  groups : List String
deriving DecidableEq

/-- The observable state of a provisioning run: the state store, the host
registrations issued so far, the labels sent to the provider create
capability so far, and the created counter of the loop. -/
structure ProvState where
  store : StateStore
  hosts : List HostReg
  calls : List String
  created : Nat
deriving DecidableEq

/-- One iteration of the provisioning loop of provision.py for index i: skip
when the name is tracked; otherwise issue the provider create call, and on a
real result add the record to the store, register the host (first address,
user root, group scale) and bump the created counter; a skipped marker does
nothing further; a raise aborts the run carrying the state reached so far
(each store mutation was already persisted). -/
def provisionStep (pr : String → CreateResponse) (st : ProvState) (i : Nat) :
    Except (String × ProvState) ProvState :=
  let name := nodeName i
  if hasName st.store name then .ok st
  else
    let st1 : ProvState := { st with calls := st.calls ++ [name] }
    match pr name with
    | .skipped => .ok st1
    | .made rid ips =>
        .ok { st1 with
              store := addName st1.store name ⟨"linode", rid, ips, name⟩,
              hosts := st1.hosts ++ [⟨name, ips.headD "", "root", ["scale"]⟩],
              created := st1.created + 1 }
    | .failure msg => .error (msg, st1)

/-- The provisioning loop: for i in range(count). -/
def provisionLoop (pr : String → CreateResponse) (count : Nat) (st0 : ProvState) :
    Except (String × ProvState) ProvState :=
  (List.range count).foldlM (provisionStep pr) st0

/-- The lines of the ansible-inventory file written by
_write_ansible_inventory: a [scale] header, one host line per tracked name
matching the prefix in sorted order, and a trailing empty line. -/
def inventoryLines (s : StateStore) : List String :=
  ["[scale]"]
    ++ ((sortStrings (resourceNames s)).filter (fun n => strStarts serverTag n)).map
        (fun n =>
          n ++ " ansible_host=" ++ (((getName s n).map (fun r => r.ipv4.headD "")).getD "")
            ++ " ansible_user=root")
    ++ [""]

/-- Result of a completed provisioning run: final observable state plus the
inventory file contents. -/
structure ProvOutcome where
  state : ProvState
  inventory : List String
deriving DecidableEq

/-- provision.py main: run the loop; if any node was newly created and this
is not a dry run, wait for ssh (a timeout is fatal); finally write the
ansible inventory from the full current store.  The sshOk flag models
whether the external reachability wait succeeds within its bound. -/
def provisionMain (pr : String → CreateResponse) (count : Nat)
    (check sshOk : Bool) (store0 : StateStore) :
    Except (String × ProvState) ProvOutcome :=
  match provisionLoop pr count ⟨store0, [], [], 0⟩ with
  | .error e => .error e
  | .ok st =>
      if 0 < st.created && !check && !sshOk then
        .error ("wait_for_ssh timeout", st)
      else
        .ok ⟨st, inventoryLines st.store⟩

/-! ## Teardown Reconciler (teardown.py main)

The destroy capability (linode_v4 with state=absent) is a response function
from label to either unit (success) or a raised message.  In check mode the
engine simulates the call (spec section 4.2), so the call cannot raise; the
loop body of teardown.py then still calls state.remove unconditionally.
-/

/-- Result of a completed teardown run: the final store, the labels sent to
the provider destroy capability, and whether the ansible-inventory file
exists after the run. -/
structure TeardownOutcome where
  store : StateStore
  destroyCalls : List String
  invFile : Bool
deriving DecidableEq

/-- One iteration of the teardown loop of teardown.py: issue the destroy
request (simulated by the engine in check mode, hence never raising then),
and remove the name from the state store; a raise aborts the run carrying
the store reached so far. -/
def teardownStep (destroy : String → Except String Unit) (check : Bool)
    (st : StateStore × List String) (n : String) :
    Except (String × StateStore × List String) (StateStore × List String) :=
  match (if check then Except.ok () else destroy n) with
  | .error e => .error (e, st.1, st.2 ++ [n])
  | .ok _ => .ok (removeName st.1 n, st.2 ++ [n])

/-- teardown.py main: collect the tracked names matching the prefix; when
none, report and return at once (the inventory cleanup after the loop is
skipped); otherwise destroy each in sorted order, then delete the
ansible-inventory file if present.  inv0 says whether that file exists when
the run starts. -/
def teardownMain (destroy : String → Except String Unit) (check : Bool)
    (store0 : StateStore) (inv0 : Bool) :
    Except (String × StateStore × List String) TeardownOutcome :=
  let names := (resourceNames store0).filter (fun n => strStarts serverTag n)
  if names.isEmpty then .ok ⟨store0, [], inv0⟩
  else
    match (sortStrings names).foldlM (teardownStep destroy check) (store0, []) with
    | .error e => .error e
    | .ok st => .ok ⟨st.1, st.2, false⟩

/-! ## Benchmark Harness (scale_test.py)

Wall-clock measurement: a backend behaviour carries the duration the backend
runs; run_ansible and run_ftl2 read the clock before and after (start and
start plus duration) and record the difference, as the code does with
time.perf_counter().  Python round(x, n) on the recorded values is modelled
as exact rational rounding half to even at n decimal places.
-/

/-- count_hosts of scale_test.py: number of tracked names matching the
prefix. -/
def countHosts (s : StateStore) : Nat :=
  (resourceNames s).countP (fun n => strStarts serverTag n)

/-- Nearest integer, ties to even: the rounding of Python round(). -/
def roundHalfEven (x : ℚ) : ℤ :=
  let f := ⌊x⌋
  let r := x - f
  if r < 1 / 2 then f
  else if 1 / 2 < r then f + 1
  else if f % 2 = 0 then f else f + 1

/-- Python round(x, p) on the rational model of a recorded time. -/
def roundTo (p : ℕ) (x : ℚ) : ℚ :=
  (roundHalfEven (x * 10 ^ p) : ℚ) / 10 ^ p

/-- Environment of one run_ansible invocation: whether the playbook file
exists, whether the ansible venv exists (get_ansible_playbook exits with
code 1 when it does not), the exit code of the ansible-playbook process and
the duration it runs. -/
structure AnsibleEnv where
  playbookExists : Bool
  venvExists : Bool
  exitCode : Nat
  duration : ℚ
deriving DecidableEq

/-- run_ansible of scale_test.py: a missing playbook file returns failure
with elapsed 0.0 before any clock reading; otherwise the playbook path is
resolved (sys.exit(1), modelled as an error, when the venv is missing), the
process runs between the two clock readings, and success is exit code 0
with the measured elapsed time. -/
def run_ansible (start : ℚ) (e : AnsibleEnv) : Except Nat (Bool × ℚ) :=
  if e.playbookExists = false then .ok (false, 0)
  else if e.venvExists = false then .error 1
  else .ok (e.exitCode == 0, (start + e.duration) - start)

/-- Behaviour of one backend_b test function: it either returns normally or
raises, after running for the given duration. -/
inductive FtlBehavior where
  | returns (duration : ℚ)
  | raises (duration : ℚ) (msg : String)

/-- run_ftl2 of scale_test.py: the try/except around the awaited test
function turns both outcomes into a (success, elapsed) pair, reading the
clock at entry and at the return or the raise; it never re-raises. -/
def run_ftl2 (start : ℚ) (b : FtlBehavior) : Bool × ℚ :=
  match b with
  | .returns d => (true, (start + d) - start)
  | .raises d _ => (false, (start + d) - start)

/-- One backend entry of a benchmark result: success flag and recorded
time. -/
structure BackendRec where
  success : Bool
  time : ℚ
deriving DecidableEq

/-- One benchmark result record, as assembled per test in the main loop of
scale_test.py; a backend entry is none when that backend was suppressed by
a flag. -/
structure TestResult where
  name : String
  description : String
  hosts : Nat
  ansible : Option BackendRec
  ftl2 : Option BackendRec
  speedup : Option ℚ
deriving DecidableEq

/-- Assembly of one result record from the raw (success, elapsed) pairs of
the two backends: each recorded time is round(elapsed, 3); when both entries
are present and both succeeded, speedup is round of the quotient of the
recorded times at two decimal places, otherwise the field is absent. -/
def buildResult (name desc : String) (hosts : Nat)
    (aRes fRes : Option (Bool × ℚ)) : TestResult :=
  let aRec := aRes.map (fun p => BackendRec.mk p.1 (roundTo 3 p.2))
  let fRec := fRes.map (fun p => BackendRec.mk p.1 (roundTo 3 p.2))
  let sp :=
    match aRec, fRec with
    | some a, some f =>
        if a.success && f.success then some (roundTo 2 (a.time / f.time)) else none
    | _, _ => none
  ⟨name, desc, hosts, aRec, fRec, sp⟩

/-- The TESTS registry of scale_test.py: name, description, playbook path.
The ftl2 procedure of each entry is a behaviour resolved by name when the
harness runs. -/
def TESTS : List (String × String × String) :=
  [("gather_facts", "Gather facts from all hosts",
    "playbooks/gather_facts.yml"),
   ("file_operations", "5x file create/stat/remove on all hosts (15 tasks)",
    "playbooks/file_operations.yml"),
   ("install_package", "Install and remove a package on all hosts",
    "playbooks/install_package.yml"),
   ("copy_and_template", "Copy 3 config files to all hosts, then clean up",
    "playbooks/copy_and_template.yml")]

/-- Command-line arguments of scale_test.py relevant to the run loop. -/
structure Args where
  testSel : Option String
  ftl2Only : Bool
  ansibleOnly : Bool

/-- One iteration of the run loop: execute the ansible backend unless
suppressed (propagating the sys.exit of a missing venv), execute the ftl2
backend unless suppressed, and assemble the result record. -/
def runOneTest (aEnv : String → AnsibleEnv) (fBeh : String → FtlBehavior)
    (args : Args) (hosts : Nat) (t : String × String × String) :
    Except Nat TestResult :=
  match (if args.ftl2Only then Except.ok none
         else (run_ansible 0 (aEnv t.1)).map some) with
  | .error c => .error c
  | .ok aRes =>
      let fRes := if args.ansibleOnly then none else some (run_ftl2 0 (fBeh t.1))
      .ok (buildResult t.1 t.2.1 hosts aRes fRes)

/-- scale_test.py main after argument parsing: resolve the host count from
the state store and exit with code 1 when it is zero, before touching any
test; select the tests (an unknown test name raises KeyError, a non-zero
exit); then run each selected test in order. -/
def scaleMain (store : StateStore) (args : Args) (aEnv : String → AnsibleEnv)
    (fBeh : String → FtlBehavior) : Except Nat (List TestResult) :=
  let hostCount := countHosts store
  if hostCount == 0 then .error 1
  else
    match (match args.testSel with
           | some t =>
               match TESTS.find? (fun (p : String × String × String) => p.1 == t) with
               | some tt => Except.ok [tt]
               | none => Except.error 1
           | none => Except.ok TESTS) with
    | .error c => .error c
    | .ok tests => tests.mapM (runOneTest aEnv fBeh args hostCount)

/-! ## Helper lemmas -/

theorem exbind_ok {ε α β : Type} (a : α) (k : α → Except ε β) :
    (Except.ok a >>= k) = k a := rfl

theorem exbind_err {ε α β : Type} (e : ε) (k : α → Except ε β) :
    ((Except.error e : Except ε α) >>= k) = .error e := rfl

theorem roundHalfEven_intCast (z : ℤ) : roundHalfEven (z : ℚ) = z := by
  simp only [roundHalfEven, Int.floor_intCast, sub_self]
  norm_num

theorem roundTo_of_mul_eq (p : ℕ) (x : ℚ) (z : ℤ) (h : x * 10 ^ p = (z : ℚ)) :
    roundTo p x = (z : ℚ) / 10 ^ p := by
  unfold roundTo
  rw [h, roundHalfEven_intCast]

theorem roundTo_third : roundTo 2 ((1 : ℚ) / 3) = 33 / 100 := by
  unfold roundTo roundHalfEven
  have h : ((1 : ℚ) / 3 * 10 ^ 2) = 100 / 3 := by norm_num
  rw [h]
  have hf : ⌊(100 : ℚ) / 3⌋ = 33 := by
    have := Rat.floor_natCast_div_natCast 100 3
    norm_num at this ⊢
  rw [hf]
  norm_num

/-! ## Claim C4: run_ansible failure recording -/

/-- Claim C4 (counterexample): the claim states that a non-zero exit of the
baseline process is recorded with elapsed time 0.0; in the code
run_ansible returns the measured elapsed time in that case.  With the
playbook and venv present, exit code 2 and a run of 1.5 seconds,
run_ansible returns (false, 1.5), and 1.5 is not 0. -/
theorem run_ansible_nonzero_exit_cex :
    run_ansible 0 ⟨true, true, 2, 3 / 2⟩ = .ok (false, 3 / 2) ∧ ((3 : ℚ) / 2 ≠ 0) := by
  constructor
  · simp only [run_ansible]
    norm_num
  · norm_num

/-- Claim C4 (amended): a missing baseline playbook makes run_ansible return
failure with elapsed time 0.0 without crashing; a present playbook whose
process exits non-zero (with the venv present, so no sys.exit) makes it
return failure with the measured elapsed time, also without crashing. -/
theorem run_ansible_failure (start : ℚ) (e : AnsibleEnv) :
    (e.playbookExists = false → run_ansible start e = .ok (false, 0)) ∧
    (e.playbookExists = true → e.venvExists = true → e.exitCode ≠ 0 →
      run_ansible start e = .ok (false, e.duration)) := by
  constructor
  · intro h
    simp [run_ansible, h]
  · intro h1 h2 h3
    simp [run_ansible, h1, h2, h3]

/-- Witness for run_ansible_failure at exit code 2, duration 1.5 and at a
missing playbook. -/
theorem run_ansible_failure_witness :
    run_ansible 7 ⟨true, true, 2, 3 / 2⟩ = .ok (false, 3 / 2) ∧
    run_ansible 7 ⟨false, true, 2, 3 / 2⟩ = .ok (false, 0) := by
  constructor
  · exact (run_ansible_failure 7 ⟨true, true, 2, 3 / 2⟩).2 rfl rfl (by decide)
  · exact (run_ansible_failure 7 ⟨false, true, 2, 3 / 2⟩).1 rfl

/-! ## Claim C9: run_ftl2 failure capture -/

/-- Claim C9: run_ftl2 wraps the awaited test function in try/except: a
function that raises after running for d seconds yields (false, d) — the
elapsed time measured up to the failure, not 0.0 — with the exception
swallowed (run_ftl2 is total, so the harness proceeds); a function that
returns normally after d seconds yields (true, d). -/
theorem run_ftl2_capture (start d : ℚ) (msg : String) :
    run_ftl2 start (.raises d msg) = (false, d) ∧
    run_ftl2 start (.returns d) = (true, d) := by
  constructor <;> simp [run_ftl2]

/-! ## Claim C6: zero-host guard -/

/-- Claim C6: when the state store holds no resource whose name matches the
prefix, scale_test.py main exits with code 1 before any registered
operation is touched (the error is returned before the test list is even
selected, so neither backend of any test runs). -/
theorem zero_host_guard (store : StateStore) (args : Args)
    (aEnv : String → AnsibleEnv) (fBeh : String → FtlBehavior)
    (h : countHosts store = 0) :
    scaleMain store args aEnv fBeh = .error 1 := by
  simp [scaleMain, h]

/-- Witness for zero_host_guard: a store holding only a non-matching name. -/
theorem zero_host_guard_witness :
    scaleMain [("web-1", ⟨"linode", 7, ["192.0.2.1"], "web-1"⟩)]
      ⟨none, false, false⟩ (fun _ => ⟨true, true, 0, 1⟩) (fun _ => .returns 1) =
      .error 1 :=
  zero_host_guard _ _ _ _ (by decide)

/-! ## Claim C5: speedup definition -/

/-- Claim C5 (amended): in a benchmark result record the speedup field is
present iff both backend entries are present with success true, and when
present it equals the quotient of the recorded (3-decimal-rounded) times,
itself rounded to 2 decimal places — not the exact quotient.  The
hypothesis that the recorded candidate time is non-zero matches the code,
which would raise ZeroDivisionError (and build no record) otherwise. -/
theorem speedup_def (name desc : String) (hosts : Nat)
    (aRes fRes : Option (Bool × ℚ))
    (hnz : ∀ p : Bool × ℚ, fRes = some p → roundTo 3 p.2 ≠ 0) :
    ((buildResult name desc hosts aRes fRes).speedup.isSome ↔
      ((∃ ta, aRes = some (true, ta)) ∧ (∃ tf, fRes = some (true, tf)))) ∧
    (∀ ta tf, aRes = some (true, ta) → fRes = some (true, tf) →
      (buildResult name desc hosts aRes fRes).speedup =
        some (roundTo 2 (roundTo 3 ta / roundTo 3 tf))) := by
  constructor
  · rcases aRes with _ | ⟨sa, ta⟩ <;> rcases fRes with _ | ⟨sf, tf⟩ <;>
      simp [buildResult] <;> cases sa <;> cases sf <;> simp
  · intro ta tf ha hf
    simp [buildResult, ha, hf]

/-- Witness for speedup_def at elapsed times 2 and 1/2 (recorded times 2.0
and 0.5). -/
theorem speedup_def_witness :
    ((buildResult "gather_facts" "Gather facts from all hosts" 3
        (some (true, 2)) (some (true, 1 / 2))).speedup.isSome ↔
      ((∃ ta, (some (true, 2) : Option (Bool × ℚ)) = some (true, ta)) ∧
        (∃ tf, (some (true, 1 / 2) : Option (Bool × ℚ)) = some (true, tf)))) ∧
    (∀ ta tf, (some (true, 2) : Option (Bool × ℚ)) = some (true, ta) →
      (some (true, 1 / 2) : Option (Bool × ℚ)) = some (true, tf) →
      (buildResult "gather_facts" "Gather facts from all hosts" 3
        (some (true, 2)) (some (true, 1 / 2))).speedup =
        some (roundTo 2 (roundTo 3 ta / roundTo 3 tf))) :=
  speedup_def "gather_facts" "Gather facts from all hosts" 3
    (some (true, 2)) (some (true, 1 / 2))
    (by
      intro p hp
      cases hp
      show roundTo 3 (1 / 2) ≠ 0
      rw [roundTo_of_mul_eq 3 (1 / 2) 500 (by norm_num)]
      norm_num)

/-- The spec scenario behind claim C5: recorded times 2.0 and 0.5 give the
speedup entry 4.0 (here the rounding changes nothing). -/
theorem speedup_example :
    (buildResult "gather_facts" "Gather facts from all hosts" 3
        (some (true, 2)) (some (true, 1 / 2))).speedup = some 4 := by
  show some (roundTo 2 (roundTo 3 2 / roundTo 3 (1 / 2))) = some 4
  have h2 : roundTo 3 (2 : ℚ) = 2 := by
    rw [roundTo_of_mul_eq 3 2 2000 (by norm_num)]; norm_num
  have h05 : roundTo 3 ((1 : ℚ) / 2) = 1 / 2 := by
    rw [roundTo_of_mul_eq 3 (1 / 2) 500 (by norm_num)]; norm_num
  rw [h2, h05, show (2 : ℚ) / (1 / 2) = 4 by norm_num,
      roundTo_of_mul_eq 2 4 400 (by norm_num)]
  norm_num

/-- Claim C5 (counterexample): a record with both backends succeeding at
recorded times 1.0 and 3.0 stores speedup 0.33, which differs from the
exact quotient 1/3 of the recorded times — refuting that the field always
equals backend_a.time / backend_b.time. -/
theorem speedup_rounding_cex :
    (buildResult "gather_facts" "Gather facts from all hosts" 3
        (some (true, 1)) (some (true, 3))).ansible = some ⟨true, 1⟩ ∧
    (buildResult "gather_facts" "Gather facts from all hosts" 3
        (some (true, 1)) (some (true, 3))).ftl2 = some ⟨true, 3⟩ ∧
    (buildResult "gather_facts" "Gather facts from all hosts" 3
        (some (true, 1)) (some (true, 3))).speedup = some (33 / 100) ∧
    ((33 : ℚ) / 100 ≠ 1 / 3) := by
  have ha : roundTo 3 (1 : ℚ) = 1 := by
    rw [roundTo_of_mul_eq 3 1 1000 (by norm_num)]; norm_num
  have hb : roundTo 3 (3 : ℚ) = 3 := by
    rw [roundTo_of_mul_eq 3 3 3000 (by norm_num)]; norm_num
  refine ⟨?_, ?_, ?_, by norm_num⟩
  · show some (⟨true, roundTo 3 1⟩ : BackendRec) = some ⟨true, 1⟩
    rw [ha]
  · show some (⟨true, roundTo 3 3⟩ : BackendRec) = some ⟨true, 3⟩
    rw [hb]
  · show some (roundTo 2 (roundTo 3 1 / roundTo 3 3)) = some (33 / 100)
    rw [ha, hb, roundTo_third]

/-! ## Claim C1: provisioning idempotency -/

theorem provisionLoop_all_present (pr : String → CreateResponse) :
    ∀ (count : Nat) (st0 : ProvState),
      (∀ i, i < count → hasName st0.store (nodeName i) = true) →
      provisionLoop pr count st0 = .ok st0 := by
  intro count
  induction count with
  | zero => intro st0 h; rfl
  | succ c ih =>
    intro st0 h
    unfold provisionLoop at ih ⊢
    rw [List.range_succ, List.foldlM_append, ih st0 (fun i hi => h i (by omega))]
    simp only [exbind_ok, List.foldlM]
    simp [provisionStep, h c (by omega)]

/-- Claim C1: when the state store already tracks every name of index below
count, the provisioning run issues no provider create call (the provider
response function is never consulted), registers no host, creates nothing,
and returns with the store it started from; hence a second run with the same
count after a successful first run is a no-op on the store. -/
theorem provision_idempotent (pr : String → CreateResponse) (count : Nat)
    (check sshOk : Bool) (store0 : StateStore)
    (h : ∀ i, i < count → hasName store0 (nodeName i) = true) :
    provisionMain pr count check sshOk store0 =
      .ok ⟨⟨store0, [], [], 0⟩, inventoryLines store0⟩ := by
  unfold provisionMain
  rw [provisionLoop_all_present pr count ⟨store0, [], [], 0⟩ h]
  simp

/-- Witness for provision_idempotent: a store already tracking ftl2-scale-0
and ftl2-scale-1, run with count 2 against a provider that would fail if it
were ever called. -/
theorem provision_idempotent_witness :
    provisionMain (fun _ => .failure "provider must not be called") 2 false true
      [("ftl2-scale-0", ⟨"linode", 1, ["192.0.2.10"], "ftl2-scale-0"⟩),
       ("ftl2-scale-1", ⟨"linode", 2, ["192.0.2.11"], "ftl2-scale-1"⟩)] =
      .ok ⟨⟨[("ftl2-scale-0", ⟨"linode", 1, ["192.0.2.10"], "ftl2-scale-0"⟩),
             ("ftl2-scale-1", ⟨"linode", 2, ["192.0.2.11"], "ftl2-scale-1"⟩)],
            [], [], 0⟩,
           inventoryLines
             [("ftl2-scale-0", ⟨"linode", 1, ["192.0.2.10"], "ftl2-scale-0"⟩),
              ("ftl2-scale-1", ⟨"linode", 2, ["192.0.2.11"], "ftl2-scale-1"⟩)]⟩ :=
  provision_idempotent _ 2 false true _ (by decide)

/-! ## Claim C10: provisioning dry-run frame -/

theorem provisionLoop_all_skipped (pr : String → CreateResponse) :
    ∀ (count : Nat) (st0 : ProvState),
      (∀ i, i < count → hasName st0.store (nodeName i) = false) →
      (∀ i, i < count → pr (nodeName i) = .skipped) →
      provisionLoop pr count st0 =
        .ok { st0 with calls := st0.calls ++ (List.range count).map nodeName } := by
  intro count
  induction count with
  | zero =>
    intro st0 h1 h2
    show Except.ok st0 = _
    rw [List.range_zero, List.map_nil, List.append_nil]
  | succ c ih =>
    intro st0 h1 h2
    unfold provisionLoop at ih ⊢
    rw [List.range_succ, List.foldlM_append,
        ih st0 (fun i hi => h1 i (by omega)) (fun i hi => h2 i (by omega))]
    simp only [exbind_ok, List.foldlM]
    simp [provisionStep, h1 c (by omega), h2 c (by omega), List.range_succ]

/-- Claim C10: a create response carrying the skipped marker makes the loop
body perform no store add, no host registration and no created increment,
so a full dry run over names absent from the store leaves the store mapping
and the created counter unchanged (only the simulated create calls are
recorded). -/
theorem provision_check_frame (pr : String → CreateResponse) (count : Nat)
    (sshOk : Bool) (store0 : StateStore)
    (habs : ∀ i, i < count → hasName store0 (nodeName i) = false)
    (hskip : ∀ i, i < count → pr (nodeName i) = .skipped) :
    provisionMain pr count true sshOk store0 =
      .ok ⟨⟨store0, [], (List.range count).map nodeName, 0⟩, inventoryLines store0⟩ := by
  unfold provisionMain
  rw [provisionLoop_all_skipped pr count ⟨store0, [], [], 0⟩ habs hskip]
  simp

/-- Witness for provision_check_frame: a dry run of two nodes over the empty
store with a provider that always answers skipped. -/
theorem provision_check_frame_witness :
    provisionMain (fun _ => .skipped) 2 true false [] =
      .ok ⟨⟨[], [], (List.range 2).map nodeName, 0⟩, inventoryLines []⟩ :=
  provision_check_frame _ 2 false [] (fun _ _ => rfl) (fun _ _ => rfl)

/-! ## Claim C2: fail-fast on create failure -/

/-- Claim C2: in a batch of five starting from a store tracking none of the
five names, when the creates of index 0 and 1 succeed and the create of
index 2 raises, the run aborts with that failure: the store records
ftl2-scale-0 and ftl2-scale-1, records none of ftl2-scale-2/3/4, and the
provider was asked exactly for indices 0, 1 and 2 — no later create was
attempted. -/
theorem provision_fail_fast (store0 : StateStore) (pr : String → CreateResponse)
    (sshOk : Bool) (rid0 rid1 : Nat) (ips0 ips1 : List String) (msg : String)
    (h0 : ∀ i, i < 5 → hasName store0 (nodeName i) = false)
    (hp0 : pr (nodeName 0) = .made rid0 ips0)
    (hp1 : pr (nodeName 1) = .made rid1 ips1)
    (hp2 : pr (nodeName 2) = .failure msg) :
    ∃ st : ProvState,
      provisionMain pr 5 false sshOk store0 = .error (msg, st) ∧
      hasName st.store (nodeName 0) = true ∧
      hasName st.store (nodeName 1) = true ∧
      hasName st.store (nodeName 2) = false ∧
      hasName st.store (nodeName 3) = false ∧
      hasName st.store (nodeName 4) = false ∧
      st.calls = [nodeName 0, nodeName 1, nodeName 2] := by
  have hne10 : (nodeName 1 == nodeName 0) = false := by decide
  have hne20 : (nodeName 2 == nodeName 0) = false := by decide
  have hne21 : (nodeName 2 == nodeName 1) = false := by decide
  have hne30 : (nodeName 3 == nodeName 0) = false := by decide
  have hne31 : (nodeName 3 == nodeName 1) = false := by decide
  have hne40 : (nodeName 4 == nodeName 0) = false := by decide
  have hne41 : (nodeName 4 == nodeName 1) = false := by decide
  have heq00 : (nodeName 0 == nodeName 0) = true := by decide
  have heq11 : (nodeName 1 == nodeName 1) = true := by decide
  refine ⟨⟨addName (addName store0 (nodeName 0) ⟨"linode", rid0, ips0, nodeName 0⟩)
             (nodeName 1) ⟨"linode", rid1, ips1, nodeName 1⟩,
           [⟨nodeName 0, ips0.headD "", "root", ["scale"]⟩,
            ⟨nodeName 1, ips1.headD "", "root", ["scale"]⟩],
           [nodeName 0, nodeName 1, nodeName 2], 2⟩, ?_, ?_, ?_, ?_, ?_, ?_, rfl⟩
  · unfold provisionMain provisionLoop
    rw [show List.range 5 = [0, 1, 2, 3, 4] from rfl]
    simp only [List.foldlM]
    rw [show provisionStep pr ⟨store0, [], [], 0⟩ 0 =
          .ok ⟨addName store0 (nodeName 0) ⟨"linode", rid0, ips0, nodeName 0⟩,
               [⟨nodeName 0, ips0.headD "", "root", ["scale"]⟩],
               [nodeName 0], 1⟩ by
        simp [provisionStep, h0 0 (by omega), hp0]]
    rw [exbind_ok]
    rw [show provisionStep pr
          ⟨addName store0 (nodeName 0) ⟨"linode", rid0, ips0, nodeName 0⟩,
           [⟨nodeName 0, ips0.headD "", "root", ["scale"]⟩],
           [nodeName 0], 1⟩ 1 =
          .ok ⟨addName (addName store0 (nodeName 0) ⟨"linode", rid0, ips0, nodeName 0⟩)
                 (nodeName 1) ⟨"linode", rid1, ips1, nodeName 1⟩,
               [⟨nodeName 0, ips0.headD "", "root", ["scale"]⟩,
                ⟨nodeName 1, ips1.headD "", "root", ["scale"]⟩],
               [nodeName 0, nodeName 1], 2⟩ by
        simp [provisionStep, hasName_addName, h0 1 (by omega), hne10, hp1]]
    rw [exbind_ok]
    rw [show provisionStep pr
          ⟨addName (addName store0 (nodeName 0) ⟨"linode", rid0, ips0, nodeName 0⟩)
             (nodeName 1) ⟨"linode", rid1, ips1, nodeName 1⟩,
           [⟨nodeName 0, ips0.headD "", "root", ["scale"]⟩,
            ⟨nodeName 1, ips1.headD "", "root", ["scale"]⟩],
           [nodeName 0, nodeName 1], 2⟩ 2 =
          .error (msg,
            ⟨addName (addName store0 (nodeName 0) ⟨"linode", rid0, ips0, nodeName 0⟩)
               (nodeName 1) ⟨"linode", rid1, ips1, nodeName 1⟩,
             [⟨nodeName 0, ips0.headD "", "root", ["scale"]⟩,
              ⟨nodeName 1, ips1.headD "", "root", ["scale"]⟩],
             [nodeName 0, nodeName 1, nodeName 2], 2⟩) by
        simp [provisionStep, hasName_addName, h0 2 (by omega), hne20, hne21, hp2]]
    rfl
  · simp [hasName_addName, heq00]
  · simp [hasName_addName, heq11]
  · simp [hasName_addName, h0 2 (by omega), hne20, hne21]
  · simp [hasName_addName, h0 3 (by omega), hne30, hne31]
  · simp [hasName_addName, h0 4 (by omega), hne40, hne41]

/-- Witness for provision_fail_fast: empty store, a provider succeeding on
indices 0 and 1 and raising on index 2. -/
theorem provision_fail_fast_witness :
    ∃ st : ProvState,
      provisionMain
        (fun n =>
          if n == nodeName 2 then .failure "linode api error"
          else .made 5 ["192.0.2.5"]) 5 false true [] =
        .error ("linode api error", st) ∧
      hasName st.store (nodeName 0) = true ∧
      hasName st.store (nodeName 1) = true ∧
      hasName st.store (nodeName 2) = false ∧
      hasName st.store (nodeName 3) = false ∧
      hasName st.store (nodeName 4) = false ∧
      st.calls = [nodeName 0, nodeName 1, nodeName 2] :=
  provision_fail_fast [] _ true 5 5 ["192.0.2.5"] ["192.0.2.5"] "linode api error"
    (fun _ _ => rfl) (by decide) (by decide) (by decide)

/-! ## Claims C3 and C7: teardown -/

/-- A concrete record used by the teardown scenarios. -/
def sampleRec : RRecord := ⟨"linode", 42, ["192.0.2.42"], "ftl2-scale-0"⟩

theorem resourceNames_removeName (s : StateStore) (m : String) :
    resourceNames (removeName s m) = (resourceNames s).filter (fun n => !(n == m)) := by
  unfold removeName resourceNames
  induction s with
  | nil => rfl
  | cons p ps ih =>
    simp only [List.filter_cons, List.map_cons]
    by_cases h : (p.1 == m) = true
    · simp [h, ih]
    · simp [h, ih]

theorem foldl_removeName_names (l : List String) :
    ∀ s : StateStore, resourceNames (l.foldl removeName s) =
      (resourceNames s).filter (fun n => !(l.contains n)) := by
  induction l with
  | nil => intro s; simp
  | cons m ms ih =>
    intro s
    simp only [List.foldl_cons]
    rw [ih (removeName s m), resourceNames_removeName, List.filter_filter]
    apply List.filter_congr
    intro x hx
    by_cases h1 : x = m <;> by_cases h2 : x ∈ ms <;>
      simp [List.contains_cons, List.contains, h1, h2]

theorem teardownLoop_ok (destroy : String → Except String Unit) (check : Bool) :
    ∀ (l : List String) (st0 out : StateStore × List String),
      l.foldlM (teardownStep destroy check) st0 = .ok out →
      out.1 = l.foldl removeName st0.1 ∧ out.2 = st0.2 ++ l := by
  intro l
  induction l with
  | nil =>
    intro st0 out h
    simp only [List.foldlM] at h
    cases h
    simp
  | cons n ns ih =>
    intro st0 out h
    simp only [List.foldlM] at h
    unfold teardownStep at h
    cases hd : (if check then Except.ok () else destroy n) with
    | error e =>
      rw [hd] at h
      simp only [exbind_err] at h
      cases h
    | ok u =>
      rw [hd] at h
      simp only [exbind_ok] at h
      have hres := ih (removeName st0.1 n, st0.2 ++ [n]) out h
      refine ⟨hres.1, ?_⟩
      rw [hres.2, List.append_assoc]
      rfl

/-- Claim C3 (code bug): teardown.py documents --check as a dry run and the
spec says a dry-run teardown only logs intent, yet the loop body calls
state.remove(name) unconditionally; in check mode (where the engine skips
the provider destroy call, modelled by a destroy function that would fail
if consulted) a store tracking ftl2-scale-0 is emptied: the run returns the
empty store, so the mapping after the run differs from the mapping before
it. -/
theorem teardown_check_mode_removes :
    teardownMain (fun _ => .error "destroy must not be called") true
      [(nodeName 0, sampleRec)] true = .ok ⟨[], [nodeName 0], false⟩ ∧
    (([] : StateStore) ≠ [(nodeName 0, sampleRec)]) := by
  constructor
  · rfl
  · decide

/-- Claim C7 (counterexample): a non-dry-run teardown over a store with no
matching names returns early, before the inventory cleanup: with the
inventory file present at the start it is still present after the run
succeeds. -/
theorem teardown_skips_inventory_cleanup_cex :
    teardownMain (fun _ => .ok ()) false [] true = .ok ⟨[], [], true⟩ ∧
    (⟨[], [], true⟩ : TeardownOutcome).invFile ≠ false := by
  constructor
  · rfl
  · decide

/-- Claim C7 (amended): after a non-dry-run teardown completes without
error, the tracked names filtered by the prefix are empty; and provided the
store held at least one matching name, the inventory file no longer exists.
(When the store held no matching names the run returns early and leaves an
existing inventory file in place, as the counterexample shows.) -/
theorem teardown_completeness (destroy : String → Except String Unit)
    (store0 : StateStore) (inv0 : Bool) (out : TeardownOutcome)
    (hok : teardownMain destroy false store0 inv0 = .ok out) :
    ((resourceNames out.store).filter (fun n => strStarts serverTag n)) = [] ∧
    (((resourceNames store0).filter (fun n => strStarts serverTag n)) ≠ [] →
      out.invFile = false) := by
  unfold teardownMain at hok
  by_cases hempty :
      ((resourceNames store0).filter (fun n => strStarts serverTag n)).isEmpty = true
  · rw [if_pos hempty] at hok
    cases hok
    have hnil := List.isEmpty_iff.mp hempty
    constructor
    · rw [hnil]
    · intro habs
      exact absurd hnil habs
  · rw [if_neg hempty] at hok
    cases heq : ((sortStrings ((resourceNames store0).filter
        (fun n => strStarts serverTag n))).foldlM (teardownStep destroy false)
        (store0, [])) with
    | error e => rw [heq] at hok; cases hok
    | ok st =>
      rw [heq] at hok
      cases hok
      have hloop := teardownLoop_ok destroy false _ _ _ heq
      constructor
      · rw [show (⟨st.1, st.2, false⟩ : TeardownOutcome).store = st.1 from rfl,
            hloop.1, foldl_removeName_names, List.filter_filter,
            List.filter_eq_nil_iff]
        intro n hn hcontr
        rw [Bool.and_eq_true] at hcontr
        have hmem : n ∈ sortStrings ((resourceNames store0).filter
            (fun m => strStarts serverTag m)) := by
          rw [mem_sortStrings, List.mem_filter]
          exact ⟨hn, hcontr.1⟩
        have hcon : (sortStrings ((resourceNames store0).filter
            (fun m => strStarts serverTag m))).contains n = true := by
          simp [List.contains, hmem]
        rw [hcon] at hcontr
        exact absurd hcontr.2 (by simp)
      · intro _
        rfl

/-- Witness for teardown_completeness: a store tracking exactly
ftl2-scale-0, the inventory file present, every destroy succeeding. -/
theorem teardown_completeness_witness :
    ((resourceNames (⟨[], [nodeName 0], false⟩ : TeardownOutcome).store).filter
        (fun n => strStarts serverTag n) = []) ∧
    (((resourceNames [(nodeName 0, sampleRec)]).filter
        (fun n => strStarts serverTag n)) ≠ [] →
      (⟨[], [nodeName 0], false⟩ : TeardownOutcome).invFile = false) :=
  teardown_completeness (fun _ => .ok ()) [(nodeName 0, sampleRec)] true
    ⟨[], [nodeName 0], false⟩ (by rfl)

/-! ## Claim C8: monotonic growth -/

/-- Indices below count whose name the store does not track: exactly the
indices for which the provisioning loop issues a create call. -/
def missingIdx (s : StateStore) (count : Nat) : List Nat :=
  (List.range count).filter (fun i => !(hasName s (nodeName i)))

theorem missingIdx_succ (s : StateStore) (c : Nat) :
    missingIdx s (c + 1) =
      missingIdx s c ++ (if hasName s (nodeName c) then [] else [c]) := by
  unfold missingIdx
  rw [List.range_succ, List.filter_append]
  congr 1
  by_cases h : hasName s (nodeName c) <;> simp [h]

/-- Characterization of a provisioning loop in which the provider answers
every consulted name with a real instance: the run succeeds, the create
calls are exactly the initially missing names in index order, the store
gains exactly those names at the end, and the created counter counts
them. -/
theorem provisionLoop_made (pr : String → CreateResponse) :
    ∀ (count : Nat) (st0 : ProvState),
      (∀ i, i < count → hasName st0.store (nodeName i) = false →
        ∃ rid ips, pr (nodeName i) = .made rid ips) →
      ∃ st : ProvState,
        provisionLoop pr count st0 = .ok st ∧
        resourceNames st.store =
          resourceNames st0.store ++ (missingIdx st0.store count).map nodeName ∧
        st.calls = st0.calls ++ (missingIdx st0.store count).map nodeName ∧
        st.created = st0.created + (missingIdx st0.store count).length := by
  intro count
  induction count with
  | zero =>
    intro st0 h
    exact ⟨st0, rfl, by simp [missingIdx], by simp [missingIdx], by simp [missingIdx]⟩
  | succ c ih =>
    intro st0 h
    obtain ⟨st, hst, hnames, hcalls, hcreated⟩ := ih st0 (fun i hi => h i (by omega))
    have hnotin : nodeName c ∉ (missingIdx st0.store c).map nodeName := by
      intro hmem
      obtain ⟨j, hj, hje⟩ := List.mem_map.mp hmem
      have hjc : j = c := nodeName_inj hje
      subst hjc
      have hjr := (List.mem_filter.mp hj).1
      rw [List.mem_range] at hjr
      omega
    have h0 := hasName_iff st0.store (nodeName c)
    have h1 := hasName_iff st.store (nodeName c)
    rw [hnames, List.mem_append] at h1
    have hhas : hasName st.store (nodeName c) = hasName st0.store (nodeName c) := by
      cases hb : hasName st0.store (nodeName c) with
      | false =>
        rw [hb] at h0
        have hn0 : nodeName c ∉ resourceNames st0.store := fun hm => by
          have := h0.mpr hm
          simp at this
        cases hc2 : hasName st.store (nodeName c) with
        | false => rfl
        | true =>
          rw [hc2] at h1
          rcases h1.mp rfl with hm | hm
          · exact absurd hm hn0
          · exact absurd hm hnotin
      | true =>
        rw [hb] at h0
        cases hc2 : hasName st.store (nodeName c) with
        | true => rfl
        | false =>
          rw [hc2] at h1
          have := h1.mpr (Or.inl (h0.mp rfl))
          simp at this
    unfold provisionLoop at hst ⊢
    rw [List.range_succ, List.foldlM_append, hst, exbind_ok]
    by_cases hb : hasName st0.store (nodeName c) = true
    · refine ⟨st, ?_, ?_, ?_, ?_⟩
      · simp [List.foldlM, provisionStep, hhas, hb]
      · rw [hnames, missingIdx_succ, hb]
        simp
      · rw [hcalls, missingIdx_succ, hb]
        simp
      · rw [hcreated, missingIdx_succ, hb]
        simp
    · have hbf : hasName st0.store (nodeName c) = false := by
        cases hval : hasName st0.store (nodeName c) with
        | false => rfl
        | true => exact absurd hval hb
      obtain ⟨rid, ips, hpr⟩ := h c (by omega) hbf
      refine ⟨⟨addName st.store (nodeName c) ⟨"linode", rid, ips, nodeName c⟩,
               st.hosts ++ [⟨nodeName c, ips.headD "", "root", ["scale"]⟩],
               st.calls ++ [nodeName c], st.created + 1⟩, ?_, ?_, ?_, ?_⟩
      · simp [List.foldlM, provisionStep, hhas, hbf, hpr]
      · rw [resourceNames_addName, hnames, missingIdx_succ, hbf]
        simp
      · rw [hcalls, missingIdx_succ, hbf]
        simp
      · rw [hcreated, missingIdx_succ, hbf]
        simp [Nat.add_assoc]

theorem provisionMain_ok_state (pr : String → CreateResponse) (count : Nat)
    (check sshOk : Bool) (store0 : StateStore) (o : ProvOutcome)
    (h : provisionMain pr count check sshOk store0 = .ok o) :
    provisionLoop pr count ⟨store0, [], [], 0⟩ = .ok o.state := by
  unfold provisionMain at h
  cases heq : provisionLoop pr count ⟨store0, [], [], 0⟩ with
  | error e => rw [heq] at h; cases h
  | ok st =>
    rw [heq] at h
    dsimp only at h
    by_cases hc : (0 < st.created && !check && !sshOk) = true
    · rw [if_pos hc] at h; cases h
    · rw [if_neg hc] at h
      cases h
      rfl

theorem range_filter_ge (N1 : Nat) :
    ∀ N2, N1 ≤ N2 →
      (List.range N2).filter (fun i => decide (N1 ≤ i)) = List.range' N1 (N2 - N1) := by
  intro N2
  induction N2 with
  | zero =>
    intro h
    have h0 : N1 = 0 := by omega
    subst h0
    rfl
  | succ c ih =>
    intro h
    rw [List.range_succ, List.filter_append]
    by_cases hc : N1 ≤ c
    · rw [ih hc]
      rw [show (List.filter (fun i => decide (N1 ≤ i)) [c]) = [c] by simp [hc]]
      rw [show c + 1 - N1 = (c - N1) + 1 by omega, List.range'_concat]
      congr 2
      omega
    · have hN : N1 = c + 1 := by omega
      subst hN
      rw [show ((List.range c).filter (fun i => decide (c + 1 ≤ i))) = [] by
            rw [List.filter_eq_nil_iff]
            intro a ha
            rw [List.mem_range] at ha
            simp
            omega]
      rw [show (List.filter (fun i => decide (c + 1 ≤ i)) [c]) = [] by simp]
      simp

/-- Claim C8 (amended): let a first run with target N1 succeed against a
provider that really creates every missing name, from a store that tracks
none of the names of index N1 .. N2-1 (the amendment: without this
freshness precondition the claim fails, see the counterexample).  Then a
second run with target N2 > N1, again with real creates, issues create
calls for exactly the names of index N1 .. N2-1 in increasing index order,
and adds exactly those names to the store. -/
theorem provision_monotonic_growth
    (store0 : StateStore) (pr1 pr2 : String → CreateResponse)
    (N1 N2 : Nat) (sshOk1 : Bool) (o1 : ProvOutcome)
    (hN : N1 < N2)
    (hpr1 : ∀ i, i < N1 → hasName store0 (nodeName i) = false →
      ∃ rid ips, pr1 (nodeName i) = .made rid ips)
    (h1 : provisionMain pr1 N1 false sshOk1 store0 = .ok o1)
    (hpr2 : ∀ j, N1 ≤ j → j < N2 → ∃ rid ips, pr2 (nodeName j) = .made rid ips)
    (hfresh : ∀ j, N1 ≤ j → j < N2 → hasName store0 (nodeName j) = false) :
    ∃ o2 : ProvOutcome,
      provisionMain pr2 N2 false true o1.state.store = .ok o2 ∧
      o2.state.calls = (List.range' N1 (N2 - N1)).map nodeName ∧
      resourceNames o2.state.store =
        resourceNames o1.state.store ++ (List.range' N1 (N2 - N1)).map nodeName ∧
      o2.state.created = N2 - N1 := by
  have hloop1 := provisionMain_ok_state pr1 N1 false sshOk1 store0 o1 h1
  obtain ⟨st1, hst1, hnames1, hcalls1, hcr1⟩ :=
    provisionLoop_made pr1 N1 ⟨store0, [], [], 0⟩ (fun i hi hm => hpr1 i hi hm)
  have hst1o : st1 = o1.state := by
    rw [hst1] at hloop1
    cases hloop1
    rfl
  subst hst1o
  dsimp only at hnames1 hcalls1 hcr1
  have hhas1 : ∀ i, i < N1 → hasName o1.state.store (nodeName i) = true := by
    intro i hi
    rw [hasName_iff, hnames1, List.mem_append]
    by_cases hm : hasName store0 (nodeName i) = true
    · exact Or.inl ((hasName_iff _ _).mp hm)
    · have hmf : hasName store0 (nodeName i) = false := by
        cases hval : hasName store0 (nodeName i) with
        | false => rfl
        | true => exact absurd hval hm
      refine Or.inr (List.mem_map.mpr ⟨i, ?_, rfl⟩)
      rw [missingIdx, List.mem_filter, List.mem_range]
      exact ⟨hi, by simp [hmf]⟩
  have hhas2 : ∀ j, N1 ≤ j → j < N2 →
      hasName o1.state.store (nodeName j) = false := by
    intro j hj1 hj2
    cases hval : hasName o1.state.store (nodeName j) with
    | false => rfl
    | true =>
      have hmem := (hasName_iff _ _).mp hval
      rw [hnames1, List.mem_append] at hmem
      rcases hmem with hm | hm
      · have := (hasName_iff _ _).mpr hm
        rw [hfresh j hj1 hj2] at this
        cases this
      · obtain ⟨i, hi, hie⟩ := List.mem_map.mp hm
        have hij : i = j := nodeName_inj hie
        subst hij
        have hir := (List.mem_filter.mp hi).1
        rw [List.mem_range] at hir
        omega
  obtain ⟨st2, hst2, hnames2, hcalls2, hcr2⟩ :=
    provisionLoop_made pr2 N2 ⟨o1.state.store, [], [], 0⟩
      (fun j hj hm => by
        dsimp only at hm
        refine hpr2 j ?_ hj
        by_contra hlt
        have hjlt : j < N1 := by omega
        rw [hhas1 j hjlt] at hm
        cases hm)
  dsimp only at hnames2 hcalls2 hcr2
  have hmiss : missingIdx o1.state.store N2 = List.range' N1 (N2 - N1) := by
    unfold missingIdx
    have hcongr : (List.range N2).filter
        (fun i => !(hasName o1.state.store (nodeName i))) =
        (List.range N2).filter (fun i => decide (N1 ≤ i)) := by
      apply List.filter_congr
      intro i hi
      rw [List.mem_range] at hi
      by_cases hc : N1 ≤ i
      · simp [hhas2 i hc hi, hc]
      · have hilt : i < N1 := by omega
        simp [hhas1 i hilt, hc]
    rw [hcongr, range_filter_ge N1 N2 (by omega)]
  refine ⟨⟨st2, inventoryLines st2.store⟩, ?_, ?_, ?_, ?_⟩
  · unfold provisionMain
    rw [hst2]
    simp
  · rw [hcalls2, hmiss]
    simp
  · rw [hnames2, hmiss]
  · rw [hcr2, hmiss]
    simp

/-- Concrete provider used by the monotonic-growth scenarios. -/
def prW : String → CreateResponse := fun _ => .made 5 ["192.0.2.5"]

/-- Store and outcome of the one-node first run of the monotonic-growth
witness. -/
def storeW1 : StateStore := [(nodeName 0, ⟨"linode", 5, ["192.0.2.5"], nodeName 0⟩)]

/-- Outcome of the first provisioning run of the monotonic-growth
witness. -/
def o1W : ProvOutcome :=
  ⟨⟨storeW1, [⟨nodeName 0, "192.0.2.5", "root", ["scale"]⟩], [nodeName 0], 1⟩,
   inventoryLines storeW1⟩

/-- Witness for provision_monotonic_growth with N1 = 1, N2 = 2 from the
empty store. -/
theorem provision_monotonic_growth_witness :
    ∃ o2 : ProvOutcome,
      provisionMain prW 2 false true o1W.state.store = .ok o2 ∧
      o2.state.calls = (List.range' 1 (2 - 1)).map nodeName ∧
      resourceNames o2.state.store =
        resourceNames o1W.state.store ++ (List.range' 1 (2 - 1)).map nodeName ∧
      o2.state.created = 2 - 1 :=
  provision_monotonic_growth [] prW prW 1 2 true o1W (by omega)
    (fun _ _ _ => ⟨5, ["192.0.2.5"], rfl⟩)
    (by rfl)
    (fun _ _ _ => ⟨5, ["192.0.2.5"], rfl⟩)
    (fun _ _ _ => rfl)

/-- Claim C8 (counterexample): the claim as stated quantifies over every
starting state; when the store already tracks ftl2-scale-1 before the runs,
a successful run with N1 = 1 followed by a run with N2 = 2 issues zero
create calls — not one call for ftl2-scale-1 as the claim demands. -/
theorem provision_monotonic_growth_cex :
    (do
      let o1 ← provisionMain prW 1 false true
        [(nodeName 1, ⟨"linode", 9, ["192.0.2.9"], nodeName 1⟩)]
      let o2 ← provisionMain prW 2 false true o1.state.store
      pure o2.state.calls) = Except.ok ([] : List String) ∧
    ([] : List String) ≠ [nodeName 1] := by
  constructor
  · rfl
  · decide

end Ftl2Scale
